import Mathlib

/-!
Shallow embedding of the frame-selection / corruption-recovery pipeline of
`printer_timelapse_generator.py`.

Numeric values (timestamps, Z-heights, file sizes, ratios) are modelled as
rationals (`ℚ`); Python floats are a subset of the rationals and every
comparison and arithmetic operation appearing in the claims is exact at the
concrete values used, away from representation boundaries.  Python's
`round(x, 3)` (round-half-to-even) is modelled exactly on `ℚ`.
File-system state (frame files on disk) is modelled explicitly; the external
`ffmpeg` frame extraction is modelled as an oracle
`extract : ℚ → Option ℚ` mapping a timestamp to `some size` when the
extraction succeeds and writes an image of that byte size, and `none` when it
fails (non-zero exit status or no file written, per `extract_single_frame`).
-/

/-- One parsed log row (`RelativeTimestamp`, `Z`), after the `float(...)`
conversions of `process_logs_and_extract_frames` succeeded; rows raising
`ValueError/KeyError/TypeError` are skipped before this point. -/
structure LogRow where
  RelativeTimestamp : ℚ
  Z : ℚ
  deriving DecidableEq, Repr

/-- Python's round-half-to-even on a rational, to an integer. -/
def roundHalfEven (q : ℚ) : ℤ :=
  let f : ℤ := ⌊q⌋
  let frac : ℚ := q - f
  if frac < 1/2 then f
  else if 1/2 < frac then f + 1
  else if f % 2 = 0 then f else f + 1

/-- `round(z, 3)` from line 143 of `printer_timelapse_generator.py`:
round the Z reading to 3 decimal places. -/
def roundTo3 (q : ℚ) : ℚ := (roundHalfEven (1000 * q) : ℚ) / 1000

/-- The timestamp list accumulated for one rounded layer key by the
`layer_timestamps_raw[z].append(rel_ts)` loop (lines 139-144): all
timestamps of rows whose rounded Z equals the key, in arrival order. -/
def layerSamples (rows : List LogRow) (key : ℚ) : List ℚ :=
  (rows.filter (fun r => roundTo3 r.Z = key)).map (·.RelativeTimestamp)

/-- The distinct rounded layer keys, in first-arrival order
(the key set of `layer_timestamps_raw`). -/
def layerKeys (rows : List LogRow) : List ℚ :=
  (rows.map (fun r => roundTo3 r.Z)).dedup

/-- Configuration options read by the pipeline, with the source defaults
(`config.get(..., default)`). -/
structure Config where
  MIN_Z_CHANGE_MM : ℚ := 1/10
  MAX_LAYER_HEIGHT_MM : ℚ := 1
  MIN_STABILITY_COUNT : ℕ := 3
  CORRUPTION_SIZE_THRESHOLD_RATIO : ℚ := 88/100
  MIN_FRAMERATE : ℤ := 15
  MAX_FRAMERATE : ℤ := 60
  deriving Repr

/-- The stable-layer filter loop (lines 154-174): walk the keys (already
sorted ascending) keeping `last_z` (initially `0.0`); skip non-positive keys;
accept a key iff its sample list is long enough and the change from `last_z`
lies in the configured band, updating `last_z` only on acceptance. -/
def stableFilter (cfg : Config) (rows : List LogRow) : List ℚ → ℚ → List ℚ
  | [], _ => []
  | z :: ks, lastZ =>
    if z ≤ 0 then stableFilter cfg rows ks lastZ
    else if cfg.MIN_STABILITY_COUNT ≤ (layerSamples rows z).length
            ∧ cfg.MIN_Z_CHANGE_MM ≤ z - lastZ ∧ z - lastZ ≤ cfg.MAX_LAYER_HEIGHT_MM
    then z :: stableFilter cfg rows ks z
    else stableFilter cfg rows ks lastZ

/-- The keys of `stable_layer_timestamps` produced from the log rows:
the raw keys are visited in ascending order (`sorted(...keys())`, line 160)
and filtered by `stableFilter` starting from `last_z = 0.0`. -/
def stableKeys (cfg : Config) (rows : List LogRow) : List ℚ :=
  stableFilter cfg rows (List.insertionSort (· ≤ ·) (layerKeys rows)) 0

/-- The midpoint timestamp used by the initial extraction pass
(lines 190-194): `start_ts + (end_ts - start_ts) / 2` with `start_ts` the
first and `end_ts` the last timestamp of the layer's sample list. -/
def midTs (tsList : List ℚ) : ℚ :=
  tsList.headD 0 + (tsList.getLast?.getD 0 - tsList.headD 0) / 2

/-- The median of `statistics.median` (line 67): middle element of the
sorted list for odd length, mean of the two middles for even length.
(`statistics.median` raises on an empty list; that case is unreachable in
the source because of the early return on line 58, and the model returns
`0` there.) -/
def medianQ (l : List ℚ) : ℚ :=
  let s := List.insertionSort (· ≤ ·) l
  if l.length % 2 = 1 then s.getD (l.length / 2) 0
  else (s.getD (l.length / 2 - 1) 0 + s.getD (l.length / 2) 0) / 2

/-- `size_threshold = median_size * threshold_ratio` (line 69). -/
def sizeThreshold (sizes : List ℚ) (ratio : ℚ) : ℚ := medianQ sizes * ratio

/-- The per-slot recovery loop (lines 90-104).  `extract ts` is the outcome
of `extract_single_frame(video_path, ts, frame_path)`: `some newSize` when
it returns `True` having written an image of `newSize` bytes, `none` when it
returns `False` (the slot's file is then modelled as unchanged).  `cur` is
the slot's on-disk size before the loop (`none` if the file is absent).
Returns `(final on-disk size, replaced flag, timestamps attempted in
order)`.  The loop walks ALL candidate timestamps of the layer in log order
(`for attempt_idx in range(0, len(available_ts))`), overwrites the slot on
every successful extraction, and breaks at the first new size
`≥ threshold`. -/
def recoverSlot (extract : ℚ → Option ℚ) (threshold : ℚ) :
    List ℚ → Option ℚ → Option ℚ × Bool × List ℚ
  | [], cur => (cur, false, [])
  | ts :: rest, cur =>
    match extract ts with
    | none =>
      let r := recoverSlot extract threshold rest cur
      (r.1, r.2.1, ts :: r.2.2)
    | some newSize =>
      if threshold ≤ newSize then (some newSize, true, [ts])
      else
        let r := recoverSlot extract threshold rest (some newSize)
        (r.1, r.2.1, ts :: r.2.2)

/-- `acceptB e thr ts` : the retry at timestamp `ts` succeeds and its
resulting size passes the threshold check of line 99. -/
def acceptB (extract : ℚ → Option ℚ) (threshold : ℚ) (ts : ℚ) : Bool :=
  match extract ts with
  | some s => threshold ≤ s
  | none => false

/-- On-disk size of a slot after a sequence of extraction attempts that
never hit the threshold: each successful attempt overwrites the slot, a
failed attempt leaves it unchanged. -/
def lastWrite (extract : ℚ → Option ℚ) (cur : Option ℚ) (cands : List ℚ) :
    Option ℚ :=
  cands.foldl (fun c ts => match extract ts with | some s => some s | none => c) cur

/-- Result of the corruption pass for one listed frame, in listing order. -/
structure SlotRes where
  /-- byte size recorded in the `filesizes` snapshot (line 62) -/
  size : ℚ
  /-- `i < len(sorted_z_layers)` (the index-out-of-range warning of
  lines 79-81 was not taken) -/
  checked : Bool
  /-- the slot was counted corrupt (`size < size_threshold`, line 83) -/
  flagged : Bool
  /-- a retry reached `new_size >= size_threshold` (line 99) -/
  replaced : Bool
  /-- the `FAILED to find a valid replacement` report (lines 103-104) -/
  reportedFailure : Bool
  /-- timestamps attempted by the recovery loop, in order -/
  attempts : List ℚ
  /-- on-disk size of the slot after the pass -/
  finalSize : Option ℚ
  deriving DecidableEq, Repr, Inhabited

/-- One iteration of the `for i, frame_path in enumerate(frame_paths)` loop
of `detect_and_replace_corrupt_frames` (lines 74-104): skip indices past
the key list with a warning, flag the slot when its snapshot `size` is
below the threshold and run the recovery loop on the layer's candidate
timestamps.  `keys` is the ascending-sorted `layer_timestamps` key list and
`samples k` the candidate timestamp list `layer_timestamps[k]`. -/
def detectSlot (extract : ℚ → Option ℚ) (thr : ℚ) (keys : List ℚ)
    (samples : ℚ → List ℚ) (i : ℕ) (size : ℚ) : SlotRes :=
  if i < keys.length then
    if size < thr then
      let r := recoverSlot extract thr (samples (keys.getD i 0)) (some size)
      { size := size, checked := true, flagged := true, replaced := r.2.1,
        reportedFailure := !r.2.1, attempts := r.2.2, finalSize := r.1 }
    else
      { size := size, checked := true, flagged := false, replaced := false,
        reportedFailure := false, attempts := [], finalSize := some size }
  else
    { size := size, checked := false, flagged := false, replaced := false,
      reportedFailure := false, attempts := [], finalSize := some size }

/-- The whole pass: one `SlotRes` per listed frame, each produced by
`detectSlot` from the size snapshot taken on line 62 and the threshold
computed once on lines 67-69. -/
def detectAndReplace (extract : ℚ → Option ℚ) (ratio : ℚ) (sizes : List ℚ)
    (keys : List ℚ) (samples : ℚ → List ℚ) : List SlotRes :=
  (List.range sizes.length).map (fun i =>
    detectSlot extract (sizeThreshold sizes ratio) keys samples i (sizes.getD i 0))

/-- `calculated_framerate = int(num_frames / target_duration_s)` with
`target_duration_s = 10.0` (lines 331-333); for `n ≥ 0` the `int(...)`
truncation is the floor of `n / 10`. -/
def calculatedFramerate (n : ℕ) : ℤ := (n : ℤ) / 10

/-- `final_framerate = max(min_fr, min(max_fr, calculated_framerate))`
(line 339). -/
def finalFramerate (n : ℕ) (minFr maxFr : ℤ) : ℤ :=
  max minFr (min maxFr (calculatedFramerate n))

/-- Clamping as the spec words it ("clamped to [minFramerate,
maxFramerate]"): keep the value inside the closed interval. -/
def clampSpec (x lo hi : ℤ) : ℤ := if x < lo then lo else if hi < x then hi else x

/-- The slot-to-layer-key assignment performed by the corruption pass:
`frame_paths` is the sorted listing of the frame files that exist on disk
(line 57; names `frame_Z_%06d.png` sort like their slot indices), and the
frame at listing position `i` is associated with `sorted_z_layers[i]`
(lines 78-85).  `producedSlots` is the set of slot indices whose file
exists; positions beyond `keys.length` are dropped (the warning branch,
lines 79-81). -/
def slotKeyAssignment (producedSlots : List ℕ) (sortedKeys : List ℚ) :
    List (ℕ × ℚ) :=
  (List.insertionSort (· ≤ ·) producedSlots).zip sortedKeys

/-- The layer key a slot was bound to at creation: slot `s` (1-based,
`frame_count`, lines 196-197) was extracted for the `s`-th ascending stable
key. -/
def originatingKey (sortedKeys : List ℚ) (slot : ℕ) : ℚ :=
  sortedKeys.getD (slot - 1) 0

/-- Session file-system state as seen by
`process_logs_and_extract_frames`: presence of the log and video files, and
the contents of the frame directory (`none` = the directory does not
exist, `some l` = the directory holds the frame files listed by slot
index). -/
structure SessionState where
  logPresent : Bool
  videoPresent : Bool
  frameDir : Option (List ℕ)
  deriving DecidableEq, Repr

/-- Lines 121-129 of `process_logs_and_extract_frames`: abort (`none`) when
the log or the video is missing; otherwise delete the whole pre-existing
frame directory (`shutil.rmtree`) and recreate it empty (`os.makedirs`). -/
def clearFrameDir (s : SessionState) : Option SessionState :=
  if s.logPresent ∧ s.videoPresent then some { s with frameDir := some [] }
  else none

/-- The file-system effect of the extraction pass: after `clearFrameDir`,
each successful extraction writes one frame file into the directory
(`writes`, in slot order).  Returns the final frame-directory contents, or
`none` when the pass aborted for missing inputs. -/
def extractionPass (s : SessionState) (writes : List ℕ) : Option (List ℕ) :=
  match clearFrameDir s with
  | none => none
  | some s2 => some (writes.foldl (fun d w => d ++ [w]) (s2.frameDir.getD []))

example : roundTo3 (2004/10000) = 1/5 := by
  norm_num [roundTo3, roundHalfEven]
example : roundTo3 (2006/10000) = 201/1000 := by
  norm_num [roundTo3, roundHalfEven]
example : layerSamples [⟨10, 2004/10000⟩, ⟨20, 2006/10000⟩] (1/5) = [10] := by
  norm_num [layerSamples, roundTo3, roundHalfEven, List.filter]
example :
    stableKeys {} [⟨1, 1/5⟩, ⟨2, 1/5⟩, ⟨3, 1/5⟩] = [1/5] := by
  norm_num [stableKeys, stableFilter, layerKeys, layerSamples, roundTo3, roundHalfEven,
    List.insertionSort, List.orderedInsert, List.dedup, List.filter, Config.MIN_STABILITY_COUNT,
    Config.MIN_Z_CHANGE_MM, Config.MAX_LAYER_HEIGHT_MM]

example : midTs [1, 2, 3] = 2 := by norm_num [midTs]
example : medianQ [10, 4, 10] = 10 := by
  norm_num [medianQ, List.insertionSort, List.orderedInsert]
example : medianQ [4, 10] = 7 := by
  norm_num [medianQ, List.insertionSort, List.orderedInsert]
example : sizeThreshold [0, 0, 0] (88/100) = 0 := by
  norm_num [sizeThreshold, medianQ, List.insertionSort, List.orderedInsert]
example :
    recoverSlot (fun _ => some 0) 5 [1, 2, 3] (some 0) = (some 0, false, [1, 2, 3]) := by
  norm_num [recoverSlot]
example :
    recoverSlot (fun ts => if ts = 2 then some 9 else some 0) 5 [1, 2, 3] (some 0)
      = (some 9, true, [1, 2]) := by
  norm_num [recoverSlot]
example : finalFramerate 47 15 60 = 15 := by decide
example : finalFramerate 1000 15 60 = 60 := by decide
example : finalFramerate 300 15 60 = 30 := by decide
example : finalFramerate 1 0 60 = 0 := by decide
example : slotKeyAssignment [2] [1/5, 2/5] = [(2, 1/5)] := by
  norm_num [slotKeyAssignment, List.insertionSort, List.orderedInsert]
example : originatingKey [1/5, 2/5] 2 = 2/5 := by norm_num [originatingKey]
example :
    extractionPass ⟨true, true, some [1, 2, 3]⟩ [1, 2] = some [1, 2] := by
  norm_num [extractionPass, clearFrameDir]
example :
    (detectAndReplace (fun _ => some 0) (88/100) [10, 4, 10] [1/5, 2/5, 3/5]
        (fun _ => [7])).map (·.flagged) = [false, true, false] := by
  norm_num [detectAndReplace, detectSlot, sizeThreshold, medianQ, List.insertionSort,
    List.orderedInsert, List.range, List.range.loop, recoverSlot]

/-! ## Helper lemmas -/

lemma getD_nonneg (l : List ℚ) (h : ∀ x ∈ l, 0 ≤ x) (n : ℕ) :
    0 ≤ l.getD n 0 := by
  by_cases hn : n < l.length
  · rw [List.getD_eq_getElem l 0 hn]
    exact h _ (List.getElem_mem hn)
  · rw [List.getD_eq_default l 0 (le_of_not_lt hn)]

lemma medianQ_nonneg (l : List ℚ) (h : ∀ x ∈ l, 0 ≤ x) : 0 ≤ medianQ l := by
  have hs : ∀ x ∈ List.insertionSort (· ≤ ·) l, 0 ≤ x := by
    intro x hx
    exact h x ((List.mem_insertionSort _).1 hx)
  unfold medianQ
  split
  · exact getD_nonneg _ hs _
  · have h1 := getD_nonneg _ hs (l.length / 2 - 1)
    have h2 := getD_nonneg _ hs (l.length / 2)
    linarith

lemma foldl_append_singleton (l : List ℕ) :
    ∀ acc : List ℕ, l.foldl (fun d w => d ++ [w]) acc = acc ++ l := by
  induction l with
  | nil => simp
  | cons a l ih =>
    intro acc
    simp [List.foldl_cons, ih]

/-! ## Claims -/

/-- C4 (counterexample): with configured bounds `minFramerate = 0 ≤
maxFramerate = 60` and frame count `n = 1 ≥ 1`, the final framerate is `0`,
which is not positive — the claim's "positive integer even when
`floor(n / 10)` is 0" fails for a non-positive configured minimum. -/
theorem framerate_not_positive_at_zero_min :
    (0 : ℤ) ≤ 60 ∧ finalFramerate 1 0 60 = 0 ∧ ¬ (0 < finalFramerate 1 0 60) := by
  refine ⟨by norm_num, by decide, by decide⟩

/-- C4 (amended): for every frame count `n` and bounds
`1 ≤ minFramerate ≤ maxFramerate`, the final framerate equals
`clamp (floor (n / 10)) minFramerate maxFramerate`, is at least
`minFramerate`, and is positive even when `floor (n / 10) = 0`; in
particular `n = 47` yields `15` with the default minimum, `n = 1000` yields
`60` with the default maximum, and `n = 300` yields `30` unclamped. -/
theorem framerate_clamp_bounds_and_examples :
    (∀ (n : ℕ) (minFr maxFr : ℤ), 1 ≤ minFr → minFr ≤ maxFr →
      finalFramerate n minFr maxFr = clampSpec (calculatedFramerate n) minFr maxFr
        ∧ minFr ≤ finalFramerate n minFr maxFr
        ∧ 0 < finalFramerate n minFr maxFr)
      ∧ finalFramerate 47 15 60 = 15
      ∧ finalFramerate 1000 15 60 = 60
      ∧ finalFramerate 300 15 60 = 30 := by
  refine ⟨?_, by decide, by decide, by decide⟩
  intro n minFr maxFr h1 hle
  simp only [finalFramerate, clampSpec, max_def, min_def]
  generalize calculatedFramerate n = r
  split_ifs <;> omega

/-- C4 (witness): the amended theorem at `n = 47`, default bounds. -/
theorem framerate_clamp_bounds_and_examples_witness :
    finalFramerate 47 15 60 = clampSpec (calculatedFramerate 47) 15 60
      ∧ (15 : ℤ) ≤ finalFramerate 47 15 60 ∧ 0 < finalFramerate 47 15 60 :=
  framerate_clamp_bounds_and_examples.1 47 15 60 (by norm_num) (by norm_num)

/-- C5 (counterexample): for the cohort `[0, 0, 0]` (three zero-byte
frames, as produced when the extractor writes empty files), the threshold
is `0` for both ratio `0.88` and the strictly larger ratio `0.9` — raising
the ratio alone does not strictly raise the threshold. -/
theorem threshold_not_strict_on_zero_median :
    (88/100 : ℚ) < 9/10
      ∧ sizeThreshold [0, 0, 0] (88/100) = 0
      ∧ sizeThreshold [0, 0, 0] (9/10) = 0 := by
  refine ⟨by norm_num, ?_, ?_⟩ <;>
    norm_num [sizeThreshold, medianQ, List.insertionSort, List.orderedInsert]

/-- C5 (amended): the corruption threshold equals
`median(sizes) * ratio`, a function of the cohort and the ratio alone; for
a fixed cohort of non-negative sizes, increasing the ratio alone never
lowers the threshold, and strictly raises it whenever the cohort median is
positive. -/
theorem threshold_formula_and_monotone (sizes : List ℚ) (r1 r2 : ℚ)
    (hpos : ∀ x ∈ sizes, 0 ≤ x) (hr : r1 < r2) :
    sizeThreshold sizes r1 = medianQ sizes * r1
      ∧ sizeThreshold sizes r1 ≤ sizeThreshold sizes r2
      ∧ (0 < medianQ sizes → sizeThreshold sizes r1 < sizeThreshold sizes r2) := by
  refine ⟨rfl, ?_, ?_⟩
  · exact mul_le_mul_of_nonneg_left (le_of_lt hr) (medianQ_nonneg sizes hpos)
  · intro hm
    exact mul_lt_mul_of_pos_left hr hm

/-- C5 (witness): the amended theorem at the cohort `[10, 4, 10]`
(median `10`), ratios `0.88 < 0.9`. -/
theorem threshold_formula_and_monotone_witness :
    sizeThreshold [10, 4, 10] (88/100) = medianQ [10, 4, 10] * (88/100)
      ∧ sizeThreshold [10, 4, 10] (88/100) ≤ sizeThreshold [10, 4, 10] (9/10)
      ∧ (0 < medianQ [10, 4, 10] →
          sizeThreshold [10, 4, 10] (88/100) < sizeThreshold [10, 4, 10] (9/10)) :=
  threshold_formula_and_monotone [10, 4, 10] (88/100) (9/10)
    (by norm_num) (by norm_num)

lemma detectAndReplace_getD (e : ℚ → Option ℚ) (ratio : ℚ) (sizes keys : List ℚ)
    (samples : ℚ → List ℚ) (i : ℕ) (hi : i < sizes.length) :
    (detectAndReplace e ratio sizes keys samples).getD i default
      = detectSlot e (sizeThreshold sizes ratio) keys samples i (sizes.getD i 0) := by
  unfold detectAndReplace
  rw [List.getD_eq_getElem _ _ (by simpa using hi)]
  simp

/-- C6: a slot whose snapshot size is at or above the threshold is never
flagged and no retry is attempted for it; and during recovery a
replacement whose size exactly equals the threshold is accepted (the loop
stops immediately, reporting the slot replaced). -/
theorem slot_at_or_above_threshold_never_retried :
    (∀ (e : ℚ → Option ℚ) (ratio : ℚ) (sizes keys : List ℚ)
        (samples : ℚ → List ℚ) (i : ℕ),
        i < sizes.length → sizeThreshold sizes ratio ≤ sizes.getD i 0 →
        ((detectAndReplace e ratio sizes keys samples).getD i default).flagged = false
          ∧ ((detectAndReplace e ratio sizes keys samples).getD i default).attempts = [])
      ∧ (∀ (e : ℚ → Option ℚ) (thr : ℚ) (rest : List ℚ) (cur : Option ℚ) (ts : ℚ),
          e ts = some thr →
          recoverSlot e thr (ts :: rest) cur = (some thr, true, [ts])) := by
  constructor
  · intro e ratio sizes keys samples i hi hge
    rw [detectAndReplace_getD e ratio sizes keys samples i hi]
    unfold detectSlot
    split_ifs with h1 h2
    · exact absurd h2 (not_lt.2 hge)
    · exact ⟨rfl, rfl⟩
    · exact ⟨rfl, rfl⟩
  · intro e thr rest cur ts hts
    simp [recoverSlot, hts]

/-- C6 (witness): slot 0 of the cohort `[10, 4, 10]` (threshold `8.8`) is
unflagged and not retried; a retry whose size equals the threshold `5`
exactly is accepted. -/
theorem slot_at_or_above_threshold_never_retried_witness :
    (((detectAndReplace (fun _ => none) (88/100) [10, 4, 10] [1/5]
          (fun _ => [])).getD 0 default).flagged = false
        ∧ ((detectAndReplace (fun _ => none) (88/100) [10, 4, 10] [1/5]
            (fun _ => [])).getD 0 default).attempts = [])
      ∧ recoverSlot (fun _ => some 5) 5 [1] none = (some 5, true, [1]) :=
  ⟨slot_at_or_above_threshold_never_retried.1 (fun _ => none) (88/100)
      [10, 4, 10] [1/5] (fun _ => []) 0 (by norm_num)
      (by norm_num [sizeThreshold, medianQ, List.insertionSort, List.orderedInsert]),
    slot_at_or_above_threshold_never_retried.2 (fun _ => some 5) 5 [] none 1 rfl⟩

/-- C7: when no candidate timestamp of a flagged slot yields a size at or
above the threshold, the recovery loop attempts every candidate, reports no
replacement, and leaves the slot with the result of its last successful
extraction attempt (its original content if every attempt failed);
moreover the pass is non-fatal: it yields a result for every listed slot,
and a flagged slot that was not replaced carries the failure report. -/
theorem recovery_exhaustion_keeps_last_result :
    (∀ (e : ℚ → Option ℚ) (thr : ℚ) (cands : List ℚ) (cur : Option ℚ),
        (∀ ts ∈ cands, ∀ s, e ts = some s → s < thr) →
        recoverSlot e thr cands cur = (lastWrite e cur cands, false, cands))
      ∧ (∀ (e : ℚ → Option ℚ) (ratio : ℚ) (sizes keys : List ℚ)
          (samples : ℚ → List ℚ),
          (detectAndReplace e ratio sizes keys samples).length = sizes.length)
      ∧ (∀ (e : ℚ → Option ℚ) (ratio : ℚ) (sizes keys : List ℚ)
          (samples : ℚ → List ℚ) (r : SlotRes),
          r ∈ detectAndReplace e ratio sizes keys samples →
          r.flagged = true → r.replaced = false → r.reportedFailure = true) := by
  refine ⟨?_, ?_, ?_⟩
  · intro e thr cands
    induction cands with
    | nil => intro cur h; simp [recoverSlot, lastWrite]
    | cons ts rest ih =>
      intro cur h
      have hts := h ts (List.mem_cons_self ts rest)
      cases hx : e ts with
      | none =>
        simp only [recoverSlot, hx]
        rw [ih cur (fun t ht s hs => h t (List.mem_cons_of_mem _ ht) s hs)]
        simp [lastWrite, List.foldl_cons, hx]
      | some s =>
        have hlt : s < thr := hts s hx
        simp only [recoverSlot, hx]
        rw [if_neg (not_le.2 hlt)]
        rw [ih (some s) (fun t ht s' hs' => h t (List.mem_cons_of_mem _ ht) s' hs')]
        simp [lastWrite, List.foldl_cons, hx]
  · intro e ratio sizes keys samples
    simp [detectAndReplace]
  · intro e ratio sizes keys samples r hr hf hnr
    simp only [detectAndReplace, List.mem_map] at hr
    obtain ⟨i, hi, rfl⟩ := hr
    unfold detectSlot at *
    split_ifs at hf hnr ⊢
    simp_all

/-- C7 (witness): candidates `[1, 2]` all yield size `1` below threshold
`5`: both are attempted, no replacement is reported, and the slot retains
the last written result. -/
theorem recovery_exhaustion_keeps_last_result_witness :
    recoverSlot (fun _ => some 1) 5 [1, 2] (some 0)
      = (lastWrite (fun _ => some 1) (some 0) [1, 2], false, [1, 2]) :=
  recovery_exhaustion_keeps_last_result.1 (fun _ => some 1) 5 [1, 2] (some 0)
    (by intro ts _ s hs; cases hs; norm_num)

/-- C10: the snapshot sizes, the checked marks and the corrupt/acceptable
classification of the corruption pass are identical under any two
extraction oracles — overwriting slots during recovery never changes the
threshold or any slot's classification — and each slot's flag is exactly
"index within the key list and snapshot size below the threshold computed
once from the snapshot". -/
theorem threshold_snapshot_oracle_independent :
    (∀ (e1 e2 : ℚ → Option ℚ) (ratio : ℚ) (sizes keys : List ℚ)
        (samples : ℚ → List ℚ),
        (detectAndReplace e1 ratio sizes keys samples).map
            (fun r => (r.size, r.checked, r.flagged))
          = (detectAndReplace e2 ratio sizes keys samples).map
              (fun r => (r.size, r.checked, r.flagged)))
      ∧ (∀ (e : ℚ → Option ℚ) (ratio : ℚ) (sizes keys : List ℚ)
          (samples : ℚ → List ℚ) (i : ℕ),
          i < sizes.length →
          ((detectAndReplace e ratio sizes keys samples).getD i default).flagged
            = (decide (i < keys.length)
                && decide (sizes.getD i 0 < sizeThreshold sizes ratio))) := by
  constructor
  · intro e1 e2 ratio sizes keys samples
    unfold detectAndReplace
    rw [List.map_map, List.map_map]
    apply List.map_congr_left
    intro i _
    simp only [Function.comp]
    unfold detectSlot
    split_ifs <;> rfl
  · intro e ratio sizes keys samples i hi
    rw [detectAndReplace_getD e ratio sizes keys samples i hi]
    unfold detectSlot
    split_ifs with h1 h2
    · simp only [decide_eq_true h1, decide_eq_true h2, Bool.and_self]
    · simp only [decide_eq_true h1, decide_eq_false h2, Bool.and_false]
    · simp only [decide_eq_false h1, Bool.false_and]

/-- C10 (witness): the flag of slot 1 in the cohort `[10, 4, 10]` equals
the snapshot-based classification. -/
theorem threshold_snapshot_oracle_independent_witness :
    ((detectAndReplace (fun _ => some 0) (88/100) [10, 4, 10] [1/5]
        (fun _ => [7])).getD 1 default).flagged
      = (decide (1 < ([(1:ℚ)/5]).length)
          && decide (([(10:ℚ), 4, 10]).getD 1 0
              < sizeThreshold [10, 4, 10] (88/100))) :=
  threshold_snapshot_oracle_independent.2 (fun _ => some 0) (88/100)
    [10, 4, 10] [1/5] (fun _ => [7]) 1 (by norm_num)

lemma stableFilter_invariant (cfg : Config) (rows : List LogRow) :
    ∀ (ks : List ℚ) (lastZ : ℚ),
      (∀ z ∈ stableFilter cfg rows ks lastZ,
        0 < z ∧ cfg.MIN_STABILITY_COUNT ≤ (layerSamples rows z).length)
      ∧ List.Chain
          (fun a b => cfg.MIN_Z_CHANGE_MM ≤ b - a ∧ b - a ≤ cfg.MAX_LAYER_HEIGHT_MM)
          lastZ (stableFilter cfg rows ks lastZ) := by
  intro ks
  induction ks with
  | nil => intro lastZ; simp [stableFilter]
  | cons z ks ih =>
    intro lastZ
    by_cases hz : z ≤ 0
    · simpa [stableFilter, hz] using ih lastZ
    · by_cases hc : cfg.MIN_STABILITY_COUNT ≤ (layerSamples rows z).length
          ∧ cfg.MIN_Z_CHANGE_MM ≤ z - lastZ ∧ z - lastZ ≤ cfg.MAX_LAYER_HEIGHT_MM
      · constructor
        · intro w hw
          simp only [stableFilter, if_neg hz, if_pos hc] at hw
          rcases List.mem_cons.1 hw with rfl | hw'
          · exact ⟨not_le.1 hz, hc.1⟩
          · exact (ih z).1 w hw'
        · simp only [stableFilter, if_neg hz, if_pos hc]
          exact List.Chain.cons ⟨hc.2.1, hc.2.2⟩ (ih z).2
      · simp only [stableFilter, if_neg hz, if_neg hc]
        exact ih lastZ

/-- C3: every key retained in the stable layer set is strictly positive,
has at least `MIN_STABILITY_COUNT` samples, and differs from the
previously accepted key (initially `0.0`) by an amount in
`[MIN_Z_CHANGE_MM, MAX_LAYER_HEIGHT_MM]` — keys violating any of these are
absent, for every log input and configuration. -/
theorem stable_layer_set_invariant (cfg : Config) (rows : List LogRow) :
    (∀ z ∈ stableKeys cfg rows,
      0 < z ∧ cfg.MIN_STABILITY_COUNT ≤ (layerSamples rows z).length)
    ∧ List.Chain
        (fun a b => cfg.MIN_Z_CHANGE_MM ≤ b - a ∧ b - a ≤ cfg.MAX_LAYER_HEIGHT_MM)
        0 (stableKeys cfg rows) :=
  stableFilter_invariant cfg rows _ 0

/-- C3 (witness): in a log reporting Z = 0.2 three times, the retained key
`0.2` is positive and has at least the default three samples. -/
theorem stable_layer_set_invariant_witness :
    0 < (1/5 : ℚ)
      ∧ ({} : Config).MIN_STABILITY_COUNT
          ≤ (layerSamples [⟨1, 1/5⟩, ⟨2, 1/5⟩, ⟨3, 1/5⟩] (1/5)).length := by
  have hm : (1/5 : ℚ) ∈ stableKeys {} [⟨1, 1/5⟩, ⟨2, 1/5⟩, ⟨3, 1/5⟩] := by
    have h : stableKeys {} [⟨1, 1/5⟩, ⟨2, 1/5⟩, ⟨3, 1/5⟩] = [1/5] := by
      norm_num [stableKeys, stableFilter, layerKeys, layerSamples, roundTo3,
        roundHalfEven, List.insertionSort, List.orderedInsert, List.dedup,
        List.filter, Config.MIN_STABILITY_COUNT, Config.MIN_Z_CHANGE_MM,
        Config.MAX_LAYER_HEIGHT_MM]
    rw [h]
    exact List.mem_singleton.2 rfl
  exact (stable_layer_set_invariant {} _).1 (1/5) hm

/-- C8 (counterexample): the raw readings `0.2004` and `0.2006` differ by
`0.0002 < 0.001`, yet they round to the distinct keys `0.200` and `0.201`
and their timestamps land in two different sample lists — they are NOT
merged into one LayerKey. -/
theorem rounding_boundary_splits_close_readings :
    |((2006:ℚ)/10000) - 2004/10000| < 1/1000
      ∧ roundTo3 (2004/10000) ≠ roundTo3 (2006/10000)
      ∧ layerSamples [⟨10, 2004/10000⟩, ⟨20, 2006/10000⟩] (roundTo3 (2004/10000)) = [10]
      ∧ layerSamples [⟨10, 2004/10000⟩, ⟨20, 2006/10000⟩] (roundTo3 (2006/10000)) = [20] := by
  refine ⟨by rw [abs_lt]; norm_num, ?_, ?_, ?_⟩ <;>
    norm_num [layerSamples, roundTo3, roundHalfEven, List.filter]

/-- C8 (amended): two log records whose raw Z readings round to the SAME
3-decimal key (in particular readings within half a grid step of a common
multiple of 0.001) are merged into one LayerKey whose sample sequence is
the concatenation of their timestamps in arrival order; readings that
differ by less than 0.001 but straddle a rounding boundary land in
distinct keys. -/
theorem same_rounded_key_merges_samples (pre mid post : List LogRow)
    (r1 r2 : LogRow) (h : roundTo3 r1.Z = roundTo3 r2.Z) :
    layerSamples (pre ++ r1 :: (mid ++ r2 :: post)) (roundTo3 r1.Z)
      = layerSamples pre (roundTo3 r1.Z)
        ++ r1.RelativeTimestamp :: (layerSamples mid (roundTo3 r1.Z)
          ++ r2.RelativeTimestamp :: layerSamples post (roundTo3 r1.Z)) := by
  simp [layerSamples, List.filter_append, List.filter_cons, h]

/-- C8 (witness): the readings `0.2004` and `0.1996` both round to `0.2`;
their two timestamps are merged in arrival order. -/
theorem same_rounded_key_merges_samples_witness :
    layerSamples ([] ++ (⟨10, 2004/10000⟩ : LogRow) :: ([] ++ (⟨20, 1996/10000⟩ : LogRow) :: []))
        (roundTo3 (2004/10000))
      = layerSamples [] (roundTo3 (2004/10000))
        ++ (10 : ℚ) :: (layerSamples [] (roundTo3 (2004/10000))
          ++ (20 : ℚ) :: layerSamples [] (roundTo3 (2004/10000))) :=
  same_rounded_key_merges_samples [] [] [] ⟨10, 2004/10000⟩ ⟨20, 1996/10000⟩
    (by norm_num [roundTo3, roundHalfEven])

/-- C2 (counterexample): two stable keys `0.2 < 0.4`; slot 1's initial
extraction failed and left its image absent, so only slot 2's file is
listed.  The corruption pass maps the first listed frame — slot 2 — to
`sorted_z_layers[0] = 0.2`, not to slot 2's originating key `0.4`: the
positional alignment is NOT preserved when an extraction gap exists. -/
theorem slot_alignment_broken_by_gap :
    slotKeyAssignment [2] [1/5, 2/5] = [(2, 1/5)]
      ∧ originatingKey [1/5, 2/5] 2 = 2/5
      ∧ (1/5 : ℚ) ≠ 2/5 := by
  refine ⟨?_, by norm_num [originatingKey], by norm_num⟩
  norm_num [slotKeyAssignment, List.insertionSort, List.orderedInsert]

lemma zip_range'_getD :
    ∀ (n a : ℕ) (ks : List ℚ), n ≤ ks.length →
      ∀ p ∈ (List.range' a n).zip ks, p.2 = ks.getD (p.1 - a) 0 := by
  intro n
  induction n with
  | zero => intro a ks _ p hp; simp [List.range'] at hp
  | succ n ih =>
    intro a ks hn p hp
    cases ks with
    | nil => simp at hn
    | cons k ks' =>
      rw [List.range'_succ a n 1, List.zip_cons_cons] at hp
      rcases List.mem_cons.1 hp with rfl | hmem
      · simp
      · have hbound : a + 1 ≤ p.1 := (List.mem_range'_1.1 (List.of_mem_zip hmem).1).1
        have h2 := ih (a + 1) ks' (by simpa using Nat.succ_le_succ_iff.1 hn) p hmem
        rw [show p.1 - a = (p.1 - (a + 1)) + 1 from by omega] at *
        simpa [List.getD_cons_succ] using h2

/-- C2 (amended): positional alignment between frame slots and
ascending-sorted stable layer keys holds exactly when every slot's initial
extraction produced a file: if the listed slots are `1..n` with
`n ≤ #keys`, the corruption pass maps each slot to its originating key;
when a slot's image is absent the later slots shift onto earlier keys (see
the counterexample). -/
theorem slot_alignment_when_all_produced (n : ℕ) (keys : List ℚ)
    (hn : n ≤ keys.length) :
    ∀ p ∈ slotKeyAssignment (List.range' 1 n) keys,
      p.2 = originatingKey keys p.1 := by
  intro p hp
  unfold slotKeyAssignment at hp
  have hsorted : List.Sorted (· ≤ ·) (List.range' 1 n) :=
    List.Pairwise.imp le_of_lt (List.pairwise_lt_range' 1 n)
  rw [List.Sorted.insertionSort_eq hsorted] at hp
  exact zip_range'_getD n 1 keys hn p hp

/-- C2 (witness): with keys `[0.2, 0.4]` and both slots produced, slot 1
is mapped to its originating key `0.2`. -/
theorem slot_alignment_when_all_produced_witness :
    ((1:ℕ), (1:ℚ)/5).2 = originatingKey [1/5, 2/5] ((1:ℕ), (1:ℚ)/5).1 := by
  have hm : ((1:ℕ), (1:ℚ)/5) ∈ slotKeyAssignment (List.range' 1 2) [1/5, 2/5] := by
    have h : slotKeyAssignment (List.range' 1 2) [1/5, 2/5]
        = [(1, 1/5), (2, 2/5)] := by
      norm_num [slotKeyAssignment, List.range', List.insertionSort, List.orderedInsert]
    rw [h]
    simp
  exact slot_alignment_when_all_produced 2 [1/5, 2/5] (by norm_num) _ hm

/-- C1 (counterexample): a layer with candidate timestamps `[1, 2, 3]`
(log order); the initial pass tried the midpoint timestamp `2`.  With
every retry producing an undersized frame, the recovery loop attempts
`[1, 2, 3]` — including the already-tried midpoint `2`, which the claim
says is excluded (under the claim only `[1, 3]` would be attempted). -/
theorem retry_includes_already_tried_timestamp :
    midTs [1, 2, 3] = 2
      ∧ (recoverSlot (fun _ => some 0) 5 [1, 2, 3] (some 0)).2.2 = [1, 2, 3]
      ∧ midTs [1, 2, 3] ∈ (recoverSlot (fun _ => some 0) 5 [1, 2, 3] (some 0)).2.2 := by
  refine ⟨by norm_num [midTs], ?_, ?_⟩
  · norm_num [recoverSlot]
  · norm_num [recoverSlot, midTs]

/-- C1 (amended): for every flagged slot the recovery loop tries ALL of
that layer's candidate timestamps in original log order — the timestamp
already tried by the initial pass is not excluded — overwriting the slot
on each successful attempt and stopping at the first retry whose
resulting on-disk size is at or above the threshold: the attempted
timestamps are exactly the prefix of the candidate list up to and
including the first acceptable candidate (the whole list when there is
none), and the slot is reported replaced iff some candidate is
acceptable. -/
theorem retry_order_all_candidates_stop_at_first (e : ℚ → Option ℚ) (thr : ℚ)
    (cands : List ℚ) (cur : Option ℚ) :
    (recoverSlot e thr cands cur).2.2
        = cands.take (cands.findIdx (acceptB e thr) + 1)
      ∧ (recoverSlot e thr cands cur).2.1 = cands.any (acceptB e thr) := by
  induction cands generalizing cur with
  | nil => simp [recoverSlot]
  | cons ts rest ih =>
    cases hx : e ts with
    | none =>
      have ha : acceptB e thr ts = false := by simp [acceptB, hx]
      simp only [recoverSlot, hx]
      simp [List.findIdx_cons, ha, List.take_succ_cons, (ih cur).1, (ih cur).2]
    | some s =>
      by_cases hs : thr ≤ s
      · have ha : acceptB e thr ts = true := by simp [acceptB, hx, hs]
        simp only [recoverSlot, hx]
        simp [List.findIdx_cons, ha, hs]
      · have ha : acceptB e thr ts = false := by simp [acceptB, hx, hs]
        simp only [recoverSlot, hx]
        rw [if_neg hs]
        simp [List.findIdx_cons, ha, List.take_succ_cons,
          (ih (some s)).1, (ih (some s)).2]

/-- C9: whenever `process_logs_and_extract_frames` reaches its extraction
pass (log and video both present), it first deletes the entire
pre-existing frame directory and recreates it empty, and the directory
afterwards holds exactly the frames written by this run — any previously
extracted frames are destroyed, regardless of what the directory held
before. -/
theorem extraction_pass_clears_frame_dir (s : SessionState) (writes : List ℕ)
    (hlog : s.logPresent = true) (hvid : s.videoPresent = true) :
    clearFrameDir s = some { s with frameDir := some [] }
      ∧ extractionPass s writes = some writes := by
  have hc : clearFrameDir s = some { s with frameDir := some [] } := by
    unfold clearFrameDir
    rw [if_pos ⟨hlog, hvid⟩]
  refine ⟨hc, ?_⟩
  unfold extractionPass
  rw [hc]
  simp [foldl_append_singleton]

/-- C9 (witness): a session whose frame directory already holds two old
frames: the pass recreates it empty and ends with exactly this run's
writes. -/
theorem extraction_pass_clears_frame_dir_witness :
    clearFrameDir ⟨true, true, some [9, 9]⟩
        = some { (⟨true, true, some [9, 9]⟩ : SessionState) with frameDir := some [] }
      ∧ extractionPass ⟨true, true, some [9, 9]⟩ [1, 2] = some [1, 2] :=
  extraction_pass_clears_frame_dir ⟨true, true, some [9, 9]⟩ [1, 2] rfl rfl
